import Mathlib

/-!
Verification development for the Membrane frontend's incremental response
pipeline: the `streamChat` SSE frame-decoding loop and the `DocumentEditor`
ghost-suggestion scheduler (debounce, staleness checks, keyboard handling).

The definitions below are shallow embeddings of the TypeScript source:
`streamChat` from the API service module and the `handleInput` /
`handleKeyDown` / `generateGhostSuggestion` callbacks of
`DocumentEditor.tsx`.  JavaScript strings are modelled as Lean `String`
(processed as `List Char`), `JSON.parse` as an executable recursive-descent
parser over the JSON grammar (numeric literals restricted to integers; the
wire protocol of this program carries string content only), and the
asynchronous event interleavings of the editor as an explicit event list
folded over an editor-state record.
-/

namespace Membrane

/-- JSON values as produced by `JSON.parse`, restricted to the fragment the
program can observe (numbers as integers). -/
inductive Json where
  | null
  | bool (b : Bool)
  | num (n : Int)
  | str (s : String)
  | arr (elems : List Json)
  | obj (fields : List (String × Json))


/-- JSON whitespace characters. -/
def isWsChar (c : Char) : Bool := c = ' ' || c = '\t' || c = '\n' || c = '\r'

/-- Drop leading JSON whitespace. -/
def skipWs : List Char → List Char
  | [] => []
  | c :: cs => if isWsChar c then skipWs cs else c :: cs

/-- ASCII digit test (code points 48-57). -/
def isDigitChar (c : Char) : Bool :=
  48 ≤ c.toNat && c.toNat ≤ 57

/-- Numeric value of an ASCII digit. -/
def digitVal (c : Char) : Nat := c.toNat - 48

/-- Split off a maximal run of leading digits. -/
def takeDigits : List Char → (List Char × List Char)
  | [] => ([], [])
  | c :: cs =>
    if isDigitChar c then
      let p := takeDigits cs
      (c :: p.1, p.2)
    else ([], c :: cs)

/-- Interpret a digit run as a natural number. -/
def digitsToNat (ds : List Char) : Nat := ds.foldl (fun a c => a * 10 + digitVal c) 0

/-- Value of a hexadecimal digit, if any (upper or lower case). -/
def hexVal (c : Char) : Option Nat :=
  let n := c.toNat
  if 48 ≤ n && n ≤ 57 then some (n - 48)
  else if 97 ≤ n && n ≤ 102 then some (n - 87)
  else if 65 ≤ n && n ≤ 70 then some (n - 55)
  else none

/-- Single-character JSON string escapes. -/
def escChar : Char → Option Char
  | '"' => some '"'
  | '\\' => some '\\'
  | '/' => some '/'
  | 'b' => some (Char.ofNat 8)
  | 'f' => some (Char.ofNat 12)
  | 'n' => some '\n'
  | 'r' => some '\r'
  | 't' => some '\t'
  | _ => none

/-- Parse the body of a JSON string after the opening quote; returns the
decoded characters and the remaining input.  Raw control characters are
rejected, as `JSON.parse` rejects them. -/
def parseStringBody : List Char → Option (List Char × List Char)
  | [] => none
  | c :: rest =>
    if c = '"' then some ([], rest)
    else if c = '\\' then
      match rest with
      | [] => none
      | e :: r =>
        if e = 'u' then
          match r with
          | h1 :: h2 :: h3 :: h4 :: r2 =>
            match hexVal h1, hexVal h2, hexVal h3, hexVal h4 with
            | some a, some b, some c2, some d =>
              (parseStringBody r2).map fun p => (Char.ofNat (((a * 16 + b) * 16 + c2) * 16 + d) :: p.1, p.2)
            | _, _, _, _ => none
          | _ => none
        else
          match escChar e with
          | some ec => (parseStringBody r).map fun p => (ec :: p.1, p.2)
          | none => none
    else if c.toNat < 32 then none
    else (parseStringBody rest).map fun p => (c :: p.1, p.2)

/-- Parse a JSON integer literal (optional minus sign, digit run). -/
def parseNumber (cs : List Char) : Option (Json × List Char) :=
  match cs with
  | '-' :: rest =>
    let p := takeDigits rest
    if p.1 = [] then none else some (.num (-(digitsToNat p.1 : Int)), p.2)
  | _ =>
    let p := takeDigits cs
    if p.1 = [] then none else some (.num (digitsToNat p.1), p.2)

mutual

/-- Parse one JSON value (fuelled; fuel bounds the nesting/member count). -/
def parseValue : Nat → List Char → Option (Json × List Char)
  | 0, _ => none
  | fuel + 1, cs =>
    match skipWs cs with
    | 'n' :: 'u' :: 'l' :: 'l' :: r => some (.null, r)
    | 't' :: 'r' :: 'u' :: 'e' :: r => some (.bool true, r)
    | 'f' :: 'a' :: 'l' :: 's' :: 'e' :: r => some (.bool false, r)
    | '"' :: r => (parseStringBody r).map fun p => (.str ⟨p.1⟩, p.2)
    | '{' :: r =>
      match skipWs r with
      | '}' :: r2 => some (.obj [], r2)
      | r2 => parseMembers fuel r2 []
    | '[' :: r =>
      match skipWs r with
      | ']' :: r2 => some (.arr [], r2)
      | r2 => parseElements fuel r2 []
    | cs2 => parseNumber cs2

/-- Parse the members of a JSON object after the opening brace. -/
def parseMembers : Nat → List Char → List (String × Json) → Option (Json × List Char)
  | 0, _, _ => none
  | fuel + 1, cs, acc =>
    match skipWs cs with
    | '"' :: r =>
      match parseStringBody r with
      | none => none
      | some (k, r2) =>
        match skipWs r2 with
        | ':' :: r3 =>
          match parseValue fuel r3 with
          | none => none
          | some (v, r4) =>
            match skipWs r4 with
            | ',' :: r5 => parseMembers fuel r5 (acc ++ [(⟨k⟩, v)])
            | '}' :: r5 => some (.obj (acc ++ [(⟨k⟩, v)]), r5)
            | _ => none
        | _ => none
    | _ => none

/-- Parse the elements of a JSON array after the opening bracket. -/
def parseElements : Nat → List Char → List Json → Option (Json × List Char)
  | 0, _, _ => none
  | fuel + 1, cs, acc =>
    match parseValue fuel cs with
    | none => none
    | some (v, r) =>
      match skipWs r with
      | ',' :: r2 => parseElements fuel r2 (acc ++ [v])
      | ']' :: r2 => some (.arr (acc ++ [v]), r2)
      | _ => none

end

/-- Model of `JSON.parse`: parse a complete JSON document (whole input,
allowing surrounding whitespace); `none` models a thrown `SyntaxError`. -/
def parseJson (cs : List Char) : Option Json :=
  match parseValue (cs.length + 1) cs with
  | some (v, rest) => if skipWs rest = [] then some v else none
  | none => none

/-- JavaScript truthiness of a parsed JSON value (`undefined` is modelled by
`Option.none` at use sites). -/
def truthy : Json → Bool
  | .null => false
  | .bool b => b
  | .num n => n != 0
  | .str s => s != ""
  | .arr _ => true
  | .obj _ => true

/-- Property lookup on parsed JSON: for duplicate keys `JSON.parse` keeps
the last occurrence. -/
def lookupLast (key : String) : List (String × Json) → Option Json
  | [] => none
  | (k, v) :: rest =>
    match lookupLast key rest with
    | some r => some r
    | none => if k = key then some v else none

/-- The `parsed.content` property access: `none` models `undefined`. -/
def getContent : Json → Option Json
  | .obj fs => lookupLast "content" fs
  | _ => none

/-- Model of JavaScript `String.prototype.split` with a one-character
separator: empty input gives one empty field, trailing empty fields are
kept. -/
def splitChar (sep : Char) : List Char → List (List Char)
  | [] => [[]]
  | c :: cs =>
    match splitChar sep cs with
    | [] => [[c]]
    | l :: ls => if c = sep then [] :: l :: ls else (c :: l) :: ls

/-- State of the `streamChat` decoding loop: the Deltas yielded so far and
whether the `[DONE]` sentinel made the generator return. -/
structure DecState where
  deltas : List Json
  done : Bool


/-- Initial decoder state. -/
def initDec : DecState := ⟨[], false⟩

/-- One iteration of the inner `for (const line of lines)` loop of
`streamChat`: lines with the `data: ` marker are candidate frames; the
`[DONE]` payload returns from the generator (modelled by the `done` flag,
which absorbs everything after it); other payloads go through `JSON.parse`
and yield `parsed.content` when it is truthy; parse failures are skipped. -/
def processLine (st : DecState) (line : List Char) : DecState :=
  if st.done then st
  else if line.take 6 = "data: ".data then
    let payload := line.drop 6
    if payload = "[DONE]".data then { st with done := true }
    else
      match parseJson payload with
      | some parsed =>
        match getContent parsed with
        | some c => if truthy c then { st with deltas := st.deltas ++ [c] } else st
        | none => st
      | none => st
  else st

/-- One iteration of the outer `while` loop of `streamChat`: decode a chunk,
split it on newlines (`chunk.split('\n')`; note there is no residual buffer
carrying a partial trailing line to the next chunk), and process each line. -/
def processChunk (st : DecState) (chunk : String) : DecState :=
  (splitChar '\n' chunk.data).foldl processLine st

/-- The whole `streamChat` read loop over the transport's chunk sequence. -/
def runChunks (chunks : List String) : DecState :=
  chunks.foldl processChunk initDec

/-- The transport response visible to `streamChat`: HTTP success flag,
status text, and the chunk sequence of the body (`none` models a response
without a readable body). -/
structure StreamResponse where
  ok : Bool
  statusText : String
  body : Option (List String)


/-- Model of the `streamChat` async generator as a whole: non-success
status throws `Stream error: <statusText>` before any body read; a missing
reader throws `No reader available`; otherwise the read loop runs to
completion and the yielded Deltas are collected in order. -/
def streamChat (r : StreamResponse) : Except String (List Json) :=
  if !r.ok then .error ("Stream error: " ++ r.statusText)
  else
    match r.body with
    | none => .error "No reader available"
    | some chunks => .ok (runChunks chunks).deltas

/-- The ghost suggestion record of `DocumentEditor.tsx`:
`{ text, position }`. -/
structure GhostSuggestion where
  text : String
  position : Nat
deriving DecidableEq

/-- One suggestion network call in flight, as captured by the closure of the
debounce-timer callback in `handleInput`: `capturedContent` is the
`newContent` closure variable (the textarea value at the input event) and
`cursorPos` is `e.target.selectionStart` read when the timer fired. -/
structure SuggestionRequest where
  id : Nat
  capturedContent : String
  cursorPos : Nat
deriving DecidableEq

/-- The observable state of one `DocumentEditor` session: the live textarea
value and cursor, the React state (`localContent`, `ghostSuggestion`,
`isComposing`), the mutable timer handle `ghostTimeoutRef`, plus explicit
books for the environment: pending `setTimeout` timers (id and the captured
`newContent`), requests in flight, and a log of issued suggestion network
calls `(text, cursor_position)`. -/
structure EditorState where
  liveContent : String
  liveCursor : Nat
  localContent : String
  ghostSuggestion : Option GhostSuggestion
  isComposing : Bool
  ghostTimeoutRef : Option Nat
  pendingTimers : List (Nat × String)
  nextTimerId : Nat
  inFlight : List SuggestionRequest
  calls : List (String × Nat)
  nextReqId : Nat
deriving DecidableEq

/-- The editor state before any event. -/
def initEditor : EditorState :=
  { liveContent := "", liveCursor := 0, localContent := "",
    ghostSuggestion := none, isComposing := false, ghostTimeoutRef := none,
    pendingTimers := [], nextTimerId := 0, inFlight := [], calls := [],
    nextReqId := 0 }

/-- The `handleInput` callback: record the new value (`setLocalContent`,
`onChange`), clear the displayed ghost suggestion, `clearTimeout` the timer
whose id is stored in `ghostTimeoutRef`, and — unless an IME composition is
active — arm a fresh debounce timer capturing `newContent` and store its id
in `ghostTimeoutRef`. -/
def handleInput (newContent : String) (newCursor : Nat) (st : EditorState) : EditorState :=
  let st1 := { st with liveContent := newContent, liveCursor := newCursor,
                       localContent := newContent, ghostSuggestion := none }
  let st2 :=
    match st1.ghostTimeoutRef with
    | some tid => { st1 with pendingTimers := st1.pendingTimers.filter fun t => t.1 != tid }
    | none => st1
  if st2.isComposing then st2
  else
    { st2 with
      pendingTimers := st2.pendingTimers ++ [(st2.nextTimerId, newContent)],
      ghostTimeoutRef := some st2.nextTimerId,
      nextTimerId := st2.nextTimerId + 1 }

/-- Expiry of a pending debounce timer: the callback reads
`e.target.selectionStart` (the live cursor at fire time) and calls
`generateGhostSuggestion(newContent, cursorPos)`, which issues the
suggestion network call; the call is logged and becomes in flight. -/
def fireTimer (tid : Nat) (st : EditorState) : EditorState :=
  match st.pendingTimers.find? (fun t => t.1 == tid) with
  | none => st
  | some t =>
    { st with
      pendingTimers := st.pendingTimers.filter fun u => u.1 != tid,
      calls := st.calls ++ [(t.2, st.liveCursor)],
      inFlight := st.inFlight ++ [⟨st.nextReqId, t.2, st.liveCursor⟩],
      nextReqId := st.nextReqId + 1 }

/-- Whitespace for the model of JavaScript `String.prototype.trim`. -/
def isTrimWs (c : Char) : Bool :=
  c = ' ' || c = '\t' || c = '\n' || c = '\r' || c = '\x0b' || c = '\x0c'

/-- Model of JavaScript `String.prototype.trim`: strip leading and trailing
whitespace. -/
def jsTrim (s : String) : String :=
  ⟨(((s.data.dropWhile isTrimWs).reverse).dropWhile isTrimWs).reverse⟩

/-- The tail of `generateGhostSuggestion` once the API call resolved:
`apiResult = none` models a thrown/caught network error, otherwise the
`suggestion` string; a non-empty, non-whitespace suggestion becomes
`{ text: suggestion, position: cursorPosition }`, anything else `null`. -/
def generateGhostSuggestion (apiResult : Option String) (cursorPosition : Nat) :
    Option GhostSuggestion :=
  match apiResult with
  | none => none
  | some s => if s != "" && jsTrim s != "" then some ⟨s, cursorPosition⟩ else none

/-- Resolution of an in-flight suggestion request: the awaited
`generateGhostSuggestion` result is applied via `setGhostSuggestion` only
when `suggestion && cursorPos === newContent.length`, where both
`cursorPos` and `newContent` are the values captured by the timer
callback's closure — the live document state is not consulted. -/
def resolveRequest (rid : Nat) (apiResult : Option String) (st : EditorState) : EditorState :=
  match st.inFlight.find? (fun r => r.id == rid) with
  | none => st
  | some req =>
    let st1 := { st with inFlight := st.inFlight.filter fun r => r.id != rid }
    match generateGhostSuggestion apiResult req.cursorPos with
    | some g =>
      if req.cursorPos = req.capturedContent.length
      then { st1 with ghostSuggestion := some g }
      else st1
    | none => st1

/-- The `handleKeyDown` callback: Tab with a ghost suggestion appends its
text to the content, clears the suggestion and moves the cursor to the end;
Escape with a ghost suggestion clears it.  Nothing else is touched — in
particular neither key clears `ghostTimeoutRef`'s pending timer nor marks
in-flight requests. -/
def handleKeyDown (key : String) (st : EditorState) : EditorState :=
  let st1 :=
    if key = "Tab" then
      match st.ghostSuggestion with
      | some g =>
        { st with localContent := st.localContent ++ g.text,
                  liveContent := st.localContent ++ g.text,
                  ghostSuggestion := none,
                  liveCursor := (st.localContent ++ g.text).length }
      | none => st
    else st
  if key = "Escape" then
    match st1.ghostSuggestion with
    | some _ => { st1 with ghostSuggestion := none }
    | none => st1
  else st1

/-- External events of one editor session, in the order they are handled by
the single JavaScript thread. -/
inductive EditorEvent where
  | input (content : String) (cursor : Nat)
  | fire (tid : Nat)
  | response (rid : Nat) (result : Option String)
  | keydown (key : String)
  | compositionStart
  | compositionEnd
deriving DecidableEq

/-- Dispatch one event to its handler. -/
def stepEditor (st : EditorState) (e : EditorEvent) : EditorState :=
  match e with
  | .input c p => handleInput c p st
  | .fire tid => fireTimer tid st
  | .response rid res => resolveRequest rid res st
  | .keydown k => handleKeyDown k st
  | .compositionStart => { st with isComposing := true }
  | .compositionEnd => { st with isComposing := false }

/-- Run an editor session from the initial state over an event list. -/
def runEditor (evs : List EditorEvent) : EditorState :=
  evs.foldl stepEditor initEditor

/-! ### Decoder lemmas -/

theorem processLine_done (st : DecState) (l : List Char) (h : st.done = true) :
    processLine st l = st := by
  simp [processLine, h]

theorem foldl_processLine_done (ls : List (List Char)) (st : DecState) (h : st.done = true) :
    ls.foldl processLine st = st := by
  induction ls with
  | nil => rfl
  | cons l ls ih => rw [List.foldl_cons, processLine_done st l h]; exact ih

theorem processChunk_done (st : DecState) (c : String) (h : st.done = true) :
    processChunk st c = st :=
  foldl_processLine_done _ _ h

theorem foldl_processChunk_done (cs : List String) (st : DecState) (h : st.done = true) :
    cs.foldl processChunk st = st := by
  induction cs with
  | nil => rfl
  | cons c cs ih => rw [List.foldl_cons, processChunk_done st c h]; exact ih

/-- Defeq normal form of `processLine` on a live decoder state and a line
carrying the `data: ` marker: the payload is checked against the sentinel
and then parsed. -/
theorem processLine_dp (ds : List Json) (payload : List Char) :
    processLine ⟨ds, false⟩ ("data: ".data ++ payload) =
      if payload = "[DONE]".data then ⟨ds, true⟩
      else
        match parseJson payload with
        | some parsed =>
          match getContent parsed with
          | some c => if truthy c then ⟨ds ++ [c], false⟩ else ⟨ds, false⟩
          | none => ⟨ds, false⟩
        | none => ⟨ds, false⟩ := rfl

theorem processLine_skip (st : DecState) (l : List Char) (h : ¬ l.take 6 = "data: ".data) :
    processLine st l = st := by
  by_cases hd : st.done = true
  · exact processLine_done st l hd
  · unfold processLine
    rw [if_neg hd, if_neg h]

theorem processLine_malformed (ds : List Json) (payload : List Char)
    (h1 : parseJson payload = none) (h2 : payload ≠ "[DONE]".data) :
    processLine ⟨ds, false⟩ ("data: ".data ++ payload) = ⟨ds, false⟩ := by
  rw [processLine_dp, if_neg h2, h1]

theorem parseJson_sentinel : parseJson ("[DONE]".data) = none := rfl

theorem processLine_content (ds : List Json) (payload : List Char) (parsed v : Json)
    (h1 : parseJson payload = some parsed) (h2 : getContent parsed = some v)
    (h3 : truthy v = true) :
    processLine ⟨ds, false⟩ ("data: ".data ++ payload) = ⟨ds ++ [v], false⟩ := by
  have hne : payload ≠ "[DONE]".data := by
    intro he
    rw [he, parseJson_sentinel] at h1
    exact Option.noConfusion h1
  rw [processLine_dp, if_neg hne, h1]
  simp [h2, h3]

theorem processLine_falsy (ds : List Json) (payload : List Char) (parsed v : Json)
    (h1 : parseJson payload = some parsed) (h2 : getContent parsed = some v)
    (h3 : truthy v = false) :
    processLine ⟨ds, false⟩ ("data: ".data ++ payload) = ⟨ds, false⟩ := by
  have hne : payload ≠ "[DONE]".data := by
    intro he
    rw [he, parseJson_sentinel] at h1
    exact Option.noConfusion h1
  rw [processLine_dp, if_neg hne, h1]
  simp [h2, h3]

/-! ### Lemmas about `splitChar` -/

theorem splitChar_ne_nil (sep : Char) (cs : List Char) : splitChar sep cs ≠ [] := by
  induction cs with
  | nil => simp [splitChar]
  | cons c cs ih =>
    unfold splitChar
    split
    · simp
    · split <;> simp

theorem splitChar_no_sep (sep : Char) (a : List Char) (h : ∀ c ∈ a, c ≠ sep) :
    splitChar sep a = [a] := by
  induction a with
  | nil => rfl
  | cons c a ih =>
    have hc : c ≠ sep := h c (List.mem_cons_self c a)
    have ha : splitChar sep a = [a] := ih fun x hx => h x (List.mem_cons_of_mem c hx)
    unfold splitChar
    rw [ha]
    simp [hc]

theorem splitChar_append_sep (sep : Char) (a b : List Char) (h : ∀ c ∈ a, c ≠ sep) :
    splitChar sep (a ++ sep :: b) = a :: splitChar sep b := by
  induction a with
  | nil =>
    simp only [List.nil_append]
    have he : splitChar sep (sep :: b) =
        match splitChar sep b with
        | [] => [[sep]]
        | l :: ls => if sep = sep then [] :: l :: ls else (sep :: l) :: ls := rfl
    rcases hb : splitChar sep b with _ | ⟨l, ls⟩
    · exact absurd hb (splitChar_ne_nil sep b)
    · rw [he, hb]
      simp
  | cons c a ih =>
    have hc : c ≠ sep := h c (List.mem_cons_self c a)
    have ha := ih fun x hx => h x (List.mem_cons_of_mem c hx)
    simp only [List.cons_append]
    have he : splitChar sep (c :: (a ++ sep :: b)) =
        match splitChar sep (a ++ sep :: b) with
        | [] => [[c]]
        | l :: ls => if c = sep then [] :: l :: ls else (c :: l) :: ls := rfl
    rw [he, ha]
    simp [hc]

/-! ### Truthiness of every emitted Delta -/

theorem mem_deltas_processLine {st : DecState} {l : List Char} {d : Json}
    (h : d ∈ (processLine st l).deltas) : d ∈ st.deltas ∨ truthy d = true := by
  rcases st with ⟨ds, d0⟩
  cases d0 with
  | true => rw [processLine_done _ _ rfl] at h; exact .inl h
  | false =>
    by_cases ht : l.take 6 = "data: ".data
    · obtain ⟨p, rfl⟩ : ∃ p, l = "data: ".data ++ p :=
        ⟨l.drop 6, by rw [← ht]; exact (List.take_append_drop 6 l).symm⟩
      rw [processLine_dp] at h
      split at h
      · exact .inl h
      · split at h
        · split at h
          · split at h
            · rcases List.mem_append.mp h with h2 | h2
              · exact .inl h2
              · rename_i htr
                rw [List.mem_singleton.mp h2]
                exact .inr htr
            · exact .inl h
          · exact .inl h
        · exact .inl h
    · rw [processLine_skip _ _ ht] at h
      exact .inl h

theorem mem_deltas_foldl_processLine (ls : List (List Char)) (st : DecState) (d : Json)
    (h : d ∈ (ls.foldl processLine st).deltas) : d ∈ st.deltas ∨ truthy d = true := by
  induction ls generalizing st with
  | nil => exact .inl h
  | cons l ls ih =>
    rw [List.foldl_cons] at h
    rcases ih (processLine st l) h with h2 | h2
    · exact mem_deltas_processLine h2
    · exact .inr h2

theorem mem_deltas_foldl_processChunk (cs : List String) (st : DecState) (d : Json)
    (h : d ∈ (cs.foldl processChunk st).deltas) : d ∈ st.deltas ∨ truthy d = true := by
  induction cs generalizing st with
  | nil => exact .inl h
  | cons c cs ih =>
    rw [List.foldl_cons] at h
    rcases ih (processChunk st c) h with h2 | h2
    · exact mem_deltas_foldl_processLine _ _ _ h2
    · exact .inr h2

/-! ### Whole-frame chunk processing -/

theorem dp_no_newline : ∀ c ∈ "data: ".data, c ≠ '\n' := by decide

theorem processChunk_contentFrame (ds : List Json) (p : List Char) (parsed v : Json)
    (h1 : parseJson p = some parsed) (h2 : getContent parsed = some v)
    (h3 : truthy v = true) (hn : '\n' ∉ p) :
    processChunk ⟨ds, false⟩ ⟨("data: ".data ++ p) ++ ['\n', '\n']⟩ = ⟨ds ++ [v], false⟩ := by
  have hA : ∀ c ∈ "data: ".data ++ p, c ≠ '\n' := by
    intro c hc
    rcases List.mem_append.mp hc with h | h
    · exact dp_no_newline c h
    · exact fun he => hn (he ▸ h)
  have hsplit : splitChar '\n' (("data: ".data ++ p) ++ ['\n', '\n'])
      = ("data: ".data ++ p) :: [[], []] := by
    have he : ("data: ".data ++ p) ++ ['\n', '\n'] = ("data: ".data ++ p) ++ '\n' :: ['\n'] := rfl
    rw [he, splitChar_append_sep _ _ _ hA]
    rfl
  show (splitChar '\n' (("data: ".data ++ p) ++ ['\n', '\n'])).foldl processLine ⟨ds, false⟩ = _
  rw [hsplit, List.foldl_cons, processLine_content ds p parsed v h1 h2 h3,
      List.foldl_cons, processLine_skip _ _ (by decide),
      List.foldl_cons, processLine_skip _ _ (by decide)]
  rfl

theorem foldl_contentFrames (frames : List (List Char × Json × Json))
    (h : ∀ f ∈ frames, parseJson f.1 = some f.2.1 ∧ getContent f.2.1 = some f.2.2 ∧
        truthy f.2.2 = true ∧ '\n' ∉ f.1) :
    ∀ ds : List Json,
      (frames.map fun f => (⟨("data: ".data ++ f.1) ++ ['\n', '\n']⟩ : String)).foldl
          processChunk ⟨ds, false⟩
        = ⟨ds ++ frames.map (fun f => f.2.2), false⟩ := by
  induction frames with
  | nil => intro ds; simp
  | cons f fs ih =>
    intro ds
    obtain ⟨h1, h2, h3, h4⟩ := h f (List.mem_cons_self f fs)
    rw [List.map_cons, List.foldl_cons, processChunk_contentFrame ds f.1 f.2.1 f.2.2 h1 h2 h3 h4,
        ih (fun g hg => h g (List.mem_cons_of_mem f hg)) (ds ++ [f.2.2])]
    simp

/-! ### Claims about the stream consumer -/

/-- C1: chunk-split invariance fails on the code.  The decoding loop of
`streamChat` splits each chunk on newlines independently and keeps no
residual buffer, so the frame `data: {"content":"A"}\n\n` decoded as a
single chunk yields the Delta `"A"`, while the same bytes split after
`data: {"con` yield no Delta at all: the partial line is parsed (and
rejected) on its own and the remainder of the frame lacks the `data: `
marker. -/
theorem chunk_split_loss :
    (runChunks ["data: \x7b\"content\":\"A\"\x7d\n\n"]).deltas = [Json.str "A"]
  ∧ (runChunks ["data: \x7b\"con", "tent\":\"A\"\x7d\n\n"]).deltas = []
  ∧ ([] : List Json) ≠ [Json.str "A"] :=
  ⟨rfl, rfl, by simp⟩

/-- C4: sentinel termination.  Once the decoder has reached the `[DONE]`
sentinel (the `done` flag of the loop state, which models the generator's
`return`), later chunks change nothing, later lines of the same chunk
change nothing, and the sentinel line itself only sets the flag, emitting
no Delta. -/
theorem sentinel_termination :
    (∀ (cs extra : List String), (runChunks cs).done = true →
        runChunks (cs ++ extra) = runChunks cs)
  ∧ (∀ (ls more : List (List Char)) (st : DecState), (ls.foldl processLine st).done = true →
        (ls ++ more).foldl processLine st = ls.foldl processLine st)
  ∧ (∀ st : DecState, st.done = false →
        processLine st ("data: [DONE]".data) = { st with done := true }) := by
  refine ⟨fun cs extra h => ?_, fun ls more st h => ?_, fun st h => ?_⟩
  · rw [runChunks, List.foldl_append]
    exact foldl_processChunk_done extra _ h
  · rw [List.foldl_append]
    exact foldl_processLine_done more _ h
  · rcases st with ⟨ds, d0⟩
    cases d0 with
    | false => rfl
    | true => simp at h

/-- C4 witness: after a chunk carrying the sentinel, a further chunk with a
well-formed content frame is not decoded. -/
theorem sentinel_termination_witness :
    runChunks (["data: [DONE]\n\n"] ++ ["data: \x7b\"content\":\"B\"\x7d\n\n"])
      = runChunks ["data: [DONE]\n\n"] :=
  sentinel_termination.1 ["data: [DONE]\n\n"] ["data: \x7b\"content\":\"B\"\x7d\n\n"] rfl

/-- C5: malformed-frame resilience.  A single chunk holding one well-formed
content frame followed by one frame whose payload does not parse as JSON
yields exactly the one Delta of the well-formed frame, and the consumer
returns normally (no thrown error). -/
theorem malformed_frame_resilience (good bad : List Char) (parsed v : Json)
    (hg1 : parseJson good = some parsed) (hg2 : getContent parsed = some v)
    (hg3 : truthy v = true) (hb : parseJson bad = none)
    (hgn : '\n' ∉ good) (hbn : '\n' ∉ bad) :
    streamChat ⟨true, "",
        some [⟨("data: ".data ++ good) ++ '\n' :: (("data: ".data ++ bad) ++ ['\n', '\n'])⟩]⟩
      = .ok [v] := by
  have hA : ∀ c ∈ "data: ".data ++ good, c ≠ '\n' := by
    intro c hc
    rcases List.mem_append.mp hc with h | h
    · exact dp_no_newline c h
    · exact fun he => hgn (he ▸ h)
  have hB : ∀ c ∈ "data: ".data ++ bad, c ≠ '\n' := by
    intro c hc
    rcases List.mem_append.mp hc with h | h
    · exact dp_no_newline c h
    · exact fun he => hbn (he ▸ h)
  have hsplit : splitChar '\n'
        (("data: ".data ++ good) ++ '\n' :: (("data: ".data ++ bad) ++ ['\n', '\n']))
      = ("data: ".data ++ good) :: ("data: ".data ++ bad) :: [[], []] := by
    rw [splitChar_append_sep _ _ _ hA]
    have he : ("data: ".data ++ bad) ++ ['\n', '\n'] = ("data: ".data ++ bad) ++ '\n' :: ['\n'] := rfl
    rw [he, splitChar_append_sep _ _ _ hB]
    rfl
  show Except.ok ((splitChar '\n'
      (("data: ".data ++ good) ++ '\n' :: (("data: ".data ++ bad) ++ ['\n', '\n']))).foldl
        processLine ⟨[], false⟩).deltas = _
  rw [hsplit, List.foldl_cons, processLine_content [] good parsed v hg1 hg2 hg3,
      List.nil_append]
  by_cases hd : bad = "[DONE]".data
  · rw [List.foldl_cons, processLine_dp, if_pos hd, foldl_processLine_done _ _ rfl]
  · rw [List.foldl_cons, processLine_malformed [v] bad hb hd,
        List.foldl_cons, processLine_skip _ _ (by decide),
        List.foldl_cons, processLine_skip _ _ (by decide)]
    rfl

/-- C5 witness: the frame `{"content":"A"}` followed by the non-JSON
payload `oops` yields exactly the Delta `"A"`. -/
theorem malformed_frame_resilience_witness :
    streamChat ⟨true, "",
        some [⟨("data: ".data ++ "\x7b\"content\":\"A\"\x7d".data)
          ++ '\n' :: (("data: ".data ++ "oops".data) ++ ['\n', '\n'])⟩]⟩
      = .ok [Json.str "A"] :=
  malformed_frame_resilience "\x7b\"content\":\"A\"\x7d".data "oops".data
    (Json.obj [("content", Json.str "A")]) (Json.str "A")
    rfl rfl rfl rfl (by decide) (by decide)

/-- C6: transport failure.  On a non-success response `streamChat` throws
`Stream error: <statusText>` before touching the body, whatever the body
is, and no Delta is produced. -/
theorem transport_failure (stat : String) (body : Option (List String)) :
    streamChat ⟨false, stat, body⟩ = .error ("Stream error: " ++ stat) := rfl

/-- C7: truncation tolerance.  For every chunk sequence — sentinel seen or
not — the read loop of `streamChat` on a successful response with a body
returns normally with the Deltas collected so far; in particular a stream
that ends after one content frame yields that one Delta and a normal end. -/
theorem truncation_tolerance :
    (∀ (stat : String) (chunks : List String),
        ∃ ds, streamChat ⟨true, stat, some chunks⟩ = .ok ds)
  ∧ streamChat ⟨true, "", some ["data: \x7b\"content\":\"X\"\x7d\n\n"]⟩ = .ok [Json.str "X"] :=
  ⟨fun _ chunks => ⟨(runChunks chunks).deltas, rfl⟩, rfl⟩

/-- C9: Delta ordering and completeness.  For every sequence of well-formed
single-line content frames sent one frame per chunk, the consumer yields
exactly the content values, in arrival order; and on the spec's example the
three Deltas concatenate to exactly `Hello world`. -/
theorem delta_ordering_completeness :
    (∀ frames : List (List Char × Json × Json),
      (∀ f ∈ frames, parseJson f.1 = some f.2.1 ∧ getContent f.2.1 = some f.2.2 ∧
          truthy f.2.2 = true ∧ '\n' ∉ f.1) →
      streamChat ⟨true, "",
          some (frames.map fun f => (⟨("data: ".data ++ f.1) ++ ['\n', '\n']⟩ : String))⟩
        = .ok (frames.map fun f => f.2.2))
  ∧ streamChat ⟨true, "", some ["data: \x7b\"content\":\"Hel\"\x7d\n\n",
        "data: \x7b\"content\":\"lo \"\x7d\n\n", "data: \x7b\"content\":\"world\"\x7d\n\n"]⟩
      = .ok [Json.str "Hel", Json.str "lo ", Json.str "world"]
  ∧ String.join ["Hel", "lo ", "world"] = "Hello world" := by
  refine ⟨fun frames h => ?_, rfl, rfl⟩
  show Except.ok ((frames.map fun f =>
      (⟨("data: ".data ++ f.1) ++ ['\n', '\n']⟩ : String)).foldl processChunk ⟨[], false⟩).deltas = _
  rw [foldl_contentFrames frames h []]
  simp

/-- C9 witness: three content frames in three chunks yield their three
Deltas in order. -/
theorem delta_ordering_completeness_witness :
    streamChat ⟨true, "",
        some (([("\x7b\"content\":\"Hel\"\x7d".data, Json.obj [("content", Json.str "Hel")], Json.str "Hel"),
               ("\x7b\"content\":\"lo \"\x7d".data, Json.obj [("content", Json.str "lo ")], Json.str "lo "),
               ("\x7b\"content\":\"world\"\x7d".data, Json.obj [("content", Json.str "world")], Json.str "world")]).map
          fun f => (⟨("data: ".data ++ f.1) ++ ['\n', '\n']⟩ : String))⟩
      = .ok ([("\x7b\"content\":\"Hel\"\x7d".data, Json.obj [("content", Json.str "Hel")], Json.str "Hel"),
              ("\x7b\"content\":\"lo \"\x7d".data, Json.obj [("content", Json.str "lo ")], Json.str "lo "),
              ("\x7b\"content\":\"world\"\x7d".data, Json.obj [("content", Json.str "world")], Json.str "world")].map
          fun f => f.2.2) :=
  delta_ordering_completeness.1 _ (by
    refine List.forall_mem_cons.mpr ⟨⟨rfl, rfl, rfl, by decide⟩, ?_⟩
    refine List.forall_mem_cons.mpr ⟨⟨rfl, rfl, rfl, by decide⟩, ?_⟩
    exact List.forall_mem_cons.mpr ⟨⟨rfl, rfl, rfl, by decide⟩, by simp⟩)

/-- C10: a well-formed `data:` frame whose parsed `content` field is falsy
(empty string, `0`, `false`, `null`) yields no Delta, exactly like a frame
without a `content` field; consequently every Delta in the output of the
decoding loop is truthy, so an empty-string Delta never appears. -/
theorem falsy_content_dropped :
    (∀ (ds : List Json) (payload : List Char) (parsed v : Json),
        parseJson payload = some parsed → getContent parsed = some v → truthy v = false →
        processLine ⟨ds, false⟩ ("data: ".data ++ payload) = ⟨ds, false⟩)
  ∧ (∀ (chunks : List String) (d : Json), d ∈ (runChunks chunks).deltas → truthy d = true) := by
  refine ⟨fun ds payload parsed v h1 h2 h3 => processLine_falsy ds payload parsed v h1 h2 h3,
          fun chunks d h => ?_⟩
  rcases mem_deltas_foldl_processChunk chunks initDec d h with h2 | h2
  · exact absurd h2 (List.not_mem_nil d)
  · exact h2

/-- C10 witness: frames with `content` equal to `""` and to `0` both leave
the Delta list unchanged. -/
theorem falsy_content_dropped_witness :
    processLine ⟨[], false⟩ ("data: ".data ++ "\x7b\"content\":\"\"\x7d".data) = ⟨[], false⟩
  ∧ processLine ⟨[], false⟩ ("data: ".data ++ "\x7b\"content\":0\x7d".data) = ⟨[], false⟩ :=
  ⟨falsy_content_dropped.1 [] "\x7b\"content\":\"\"\x7d".data
      (Json.obj [("content", Json.str "")]) (Json.str "") rfl rfl rfl,
   falsy_content_dropped.1 [] "\x7b\"content\":0\x7d".data
      (Json.obj [("content", Json.num 0)]) (Json.num 0) rfl rfl rfl⟩

/-! ### Scheduler lemmas -/

/-- Effect of one input event on a state whose pending-timer book is
consistent with `ghostTimeoutRef` (no timer, or exactly the referenced
one): the old timer is cleared and a fresh one is armed, capturing the new
content; calls, in-flight requests and the composition flag are untouched. -/
theorem handleInput_step (c : String) (p : Nat) (st : EditorState)
    (hcomp : st.isComposing = false)
    (hpend : st.pendingTimers = [] ∨
      ∃ t, st.pendingTimers = [t] ∧ st.ghostTimeoutRef = some t.1) :
    handleInput c p st =
      { st with liveContent := c, liveCursor := p, localContent := c,
                ghostSuggestion := none,
                pendingTimers := [(st.nextTimerId, c)],
                ghostTimeoutRef := some st.nextTimerId,
                nextTimerId := st.nextTimerId + 1 } := by
  rcases st with ⟨lc, lcur, loc, g, comp, ref, pend, nid, infl, cls, nrq⟩
  simp only at hcomp
  subst hcomp
  rcases hpend with hp | ⟨t, hp, href⟩
  · simp only at hp
    subst hp
    cases ref with
    | none => rfl
    | some tid => rfl
  · simp only at hp href
    subst hp
    subst href
    obtain ⟨tid, tc⟩ := t
    simp [handleInput, List.filter]

/-- Firing the only pending timer: its captured content together with the
live cursor at fire time are logged as the network call and become the
in-flight request. -/
theorem fireTimer_singleton (k : Nat) (c : String) (st : EditorState)
    (h : st.pendingTimers = [(k, c)]) :
    fireTimer k st = { st with pendingTimers := [],
                               calls := st.calls ++ [(c, st.liveCursor)],
                               inFlight := st.inFlight ++ [⟨st.nextReqId, c, st.liveCursor⟩],
                               nextReqId := st.nextReqId + 1 } := by
  unfold fireTimer
  rw [h]
  simp [List.find?, List.filter]

/-- The last element of a list, with a fallback for the empty list. -/
def lastOr {A : Type} (dflt : A) : List A → A
  | [] => dflt
  | x :: xs => lastOr x xs

theorem lastOr_eq_getLast {A : Type} (l : List A) (h : l ≠ []) (d : A) :
    lastOr d l = l.getLast h := by
  induction l generalizing d with
  | nil => exact absurd rfl h
  | cons x xs ih =>
    cases xs with
    | nil => rfl
    | cons y ys => rw [List.getLast_cons (by simp)]; exact ih (by simp) x

/-- Folding a non-empty burst of input events from a consistent state: the
final state reflects the last event, exactly one timer is pending (armed by
the last event), and no network call was issued during the burst. -/
theorem burst_fold (rest : List (String × Nat)) :
    ∀ (e : String × Nat) (st : EditorState),
    st.isComposing = false →
    (st.pendingTimers = [] ∨
      ∃ t, st.pendingTimers = [t] ∧ st.ghostTimeoutRef = some t.1) →
    ((e :: rest).map fun ev => EditorEvent.input ev.1 ev.2).foldl stepEditor st =
      { st with
          liveContent := (lastOr e rest).1,
          liveCursor := (lastOr e rest).2,
          localContent := (lastOr e rest).1,
          ghostSuggestion := none,
          pendingTimers := [(st.nextTimerId + rest.length, (lastOr e rest).1)],
          ghostTimeoutRef := some (st.nextTimerId + rest.length),
          nextTimerId := st.nextTimerId + rest.length + 1 } := by
  induction rest with
  | nil =>
    intro e st hcomp hpend
    simp only [List.map_cons, List.map_nil, List.foldl_cons, List.foldl_nil,
      List.length_nil, Nat.add_zero, lastOr]
    exact handleInput_step e.1 e.2 st hcomp hpend
  | cons e2 rest ih =>
    intro e st hcomp hpend
    rw [List.map_cons, List.foldl_cons]
    show List.foldl stepEditor (stepEditor st (EditorEvent.input e.1 e.2)) _ = _
    have hrec := ih e2
      ({ st with liveContent := e.1, liveCursor := e.2, localContent := e.1,
                 ghostSuggestion := none, pendingTimers := [(st.nextTimerId, e.1)],
                 ghostTimeoutRef := some st.nextTimerId, nextTimerId := st.nextTimerId + 1 })
      hcomp (Or.inr ⟨(st.nextTimerId, e.1), rfl, rfl⟩)
    rw [show stepEditor st (EditorEvent.input e.1 e.2) = handleInput e.1 e.2 st from rfl,
        handleInput_step e.1 e.2 st hcomp hpend, hrec]
    simp only [List.length_cons, lastOr]
    have h1 : st.nextTimerId + 1 + rest.length = st.nextTimerId + (rest.length + 1) := by omega
    rw [h1]

/-! ### Claims about the suggestion scheduler -/

/-- C3: debounce collapse.  A burst of N ≥ 1 input events issues no network
call while it lasts and leaves exactly one armed timer, keyed to the last
event; when that timer fires after the quiet period, exactly one suggestion
call is issued, carrying the content and the cursor position of the last
event of the burst. -/
theorem debounce_collapse (events : List (String × Nat)) (h : events ≠ []) :
    (runEditor (events.map fun ev => EditorEvent.input ev.1 ev.2)).calls = []
  ∧ (runEditor (events.map fun ev => EditorEvent.input ev.1 ev.2)).pendingTimers
      = [(events.length - 1, (events.getLast h).1)]
  ∧ (runEditor ((events.map fun ev => EditorEvent.input ev.1 ev.2)
        ++ [EditorEvent.fire (events.length - 1)])).calls
      = [((events.getLast h).1, (events.getLast h).2)]
  ∧ (runEditor ((events.map fun ev => EditorEvent.input ev.1 ev.2)
        ++ [EditorEvent.fire (events.length - 1)])).pendingTimers = [] := by
  obtain ⟨e, rest, rfl⟩ := List.exists_cons_of_ne_nil h
  have hlast : lastOr e rest = (e :: rest).getLast h := lastOr_eq_getLast (e :: rest) h e
  have hb := burst_fold rest e initEditor rfl (Or.inl rfl)
  have hlen : (e :: rest).length - 1 = rest.length := by simp
  have hσ : runEditor ((e :: rest).map fun ev => EditorEvent.input ev.1 ev.2) =
      { liveContent := (lastOr e rest).1,
        liveCursor := (lastOr e rest).2,
        localContent := (lastOr e rest).1,
        ghostSuggestion := none,
        isComposing := false,
        ghostTimeoutRef := some rest.length,
        pendingTimers := [(rest.length, (lastOr e rest).1)],
        nextTimerId := rest.length + 1,
        inFlight := [],
        calls := [],
        nextReqId := 0 } := by
    rw [runEditor, hb]
    simp [initEditor]
  have hfire : runEditor (((e :: rest).map fun ev => EditorEvent.input ev.1 ev.2)
        ++ [EditorEvent.fire ((e :: rest).length - 1)])
      = fireTimer ((e :: rest).length - 1)
          (runEditor ((e :: rest).map fun ev => EditorEvent.input ev.1 ev.2)) := by
    rw [runEditor, runEditor, List.foldl_append, List.foldl_cons, List.foldl_nil]
    rfl
  refine ⟨?_, ?_, ?_, ?_⟩
  · rw [hσ]
  · rw [hσ, hlen, ← hlast]
  · rw [hfire, hσ, hlen]
    rw [fireTimer_singleton rest.length (lastOr e rest).1 _ rfl]
    rw [← hlast]
    rfl
  · rw [hfire, hσ, hlen]
    rw [fireTimer_singleton rest.length (lastOr e rest).1 _ rfl]

/-- C3 witness: two quick inputs `("a", 1)` then `("ab", 2)` arm exactly one
timer and, on its expiry, issue exactly the one call `("ab", 2)`. -/
theorem debounce_collapse_witness :
    (runEditor [EditorEvent.input "a" 1, EditorEvent.input "ab" 2]).calls = []
  ∧ (runEditor [EditorEvent.input "a" 1, EditorEvent.input "ab" 2]).pendingTimers = [(1, "ab")]
  ∧ (runEditor [EditorEvent.input "a" 1, EditorEvent.input "ab" 2, EditorEvent.fire 1]).calls
      = [("ab", 2)]
  ∧ (runEditor [EditorEvent.input "a" 1, EditorEvent.input "ab" 2,
      EditorEvent.fire 1]).pendingTimers = [] := by
  have hd := debounce_collapse [("a", 1), ("ab", 2)] (by simp)
  simpa using hd

/-- C2: staleness drop fails on the code.  Trace: the user types `a`
(cursor 1), the debounce timer fires and issues the suggestion request
capturing `("a", 1)`, the user then types `b` (content `ab`, cursor 2)
while the request is in flight, and the response `xyz` finally resolves.
The resolution check compares the fire-time cursor (1) with the captured
content's length (`"a".length` = 1) and never consults the live document,
so the stale suggestion is applied even though the live content is now
`ab`. -/
theorem stale_response_applied :
    (runEditor [EditorEvent.input "a" 1, EditorEvent.fire 0]).inFlight
        = [⟨0, "a", 1⟩]
  ∧ (runEditor [EditorEvent.input "a" 1, EditorEvent.fire 0,
        EditorEvent.input "ab" 2]).liveContent = "ab"
  ∧ (runEditor [EditorEvent.input "a" 1, EditorEvent.fire 0,
        EditorEvent.input "ab" 2]).ghostSuggestion = none
  ∧ (runEditor [EditorEvent.input "a" 1, EditorEvent.fire 0, EditorEvent.input "ab" 2,
        EditorEvent.response 0 (some "xyz")]).ghostSuggestion = some ⟨"xyz", 1⟩
  ∧ (runEditor [EditorEvent.input "a" 1, EditorEvent.fire 0, EditorEvent.input "ab" 2,
        EditorEvent.response 0 (some "xyz")]).liveContent = "ab" := by
  refine ⟨by decide, by decide, by decide, by decide, by decide⟩

/-- C8 counterexample: Escape does not return the scheduler to Idle.  In
the trace below a ghost suggestion is shown while a second debounce timer
is still pending; Escape clears only the displayed suggestion, the pending
timer survives it, later fires and issues a second network call, and that
call's result is applied — not discarded. -/
theorem escape_ignores_pending_request :
    (runEditor [EditorEvent.input "a" 1, EditorEvent.fire 0, EditorEvent.input "ab" 2,
        EditorEvent.response 0 (some "xyz"), EditorEvent.keydown "Escape"]).ghostSuggestion
      = none
  ∧ (runEditor [EditorEvent.input "a" 1, EditorEvent.fire 0, EditorEvent.input "ab" 2,
        EditorEvent.response 0 (some "xyz"), EditorEvent.keydown "Escape"]).pendingTimers
      = [(1, "ab")]
  ∧ (runEditor [EditorEvent.input "a" 1, EditorEvent.fire 0, EditorEvent.input "ab" 2,
        EditorEvent.response 0 (some "xyz"), EditorEvent.keydown "Escape", EditorEvent.fire 1,
        EditorEvent.response 1 (some "uvw")]).calls
      = [("a", 1), ("ab", 2)]
  ∧ (runEditor [EditorEvent.input "a" 1, EditorEvent.fire 0, EditorEvent.input "ab" 2,
        EditorEvent.response 0 (some "xyz"), EditorEvent.keydown "Escape", EditorEvent.fire 1,
        EditorEvent.response 1 (some "uvw")]).ghostSuggestion
      = some ⟨"uvw", 2⟩ := by
  refine ⟨by decide, by decide, by decide, by decide⟩

/-- C8 amended: Escape (with a ghost suggestion shown) and Tab (accept)
clear the displayed ghost suggestion immediately — Tab additionally appends
its text to the content — but neither clears the pending debounce timer nor
invalidates an in-flight request; such a timer still fires and its result
is still subject only to the ordinary captured-cursor check. -/
theorem keydown_clears_ghost_only (st : EditorState) (g : GhostSuggestion)
    (h : st.ghostSuggestion = some g) :
    (handleKeyDown "Escape" st).ghostSuggestion = none
  ∧ (handleKeyDown "Escape" st).pendingTimers = st.pendingTimers
  ∧ (handleKeyDown "Escape" st).inFlight = st.inFlight
  ∧ (handleKeyDown "Escape" st).ghostTimeoutRef = st.ghostTimeoutRef
  ∧ (handleKeyDown "Escape" st).localContent = st.localContent
  ∧ (handleKeyDown "Tab" st).ghostSuggestion = none
  ∧ (handleKeyDown "Tab" st).pendingTimers = st.pendingTimers
  ∧ (handleKeyDown "Tab" st).inFlight = st.inFlight
  ∧ (handleKeyDown "Tab" st).ghostTimeoutRef = st.ghostTimeoutRef
  ∧ (handleKeyDown "Tab" st).localContent = st.localContent ++ g.text := by
  simp [handleKeyDown, h]

/-- C8 amended witness: in the state reached after an applied suggestion
with a second timer pending, Escape clears the ghost but leaves the timer
book and in-flight list untouched. -/
theorem keydown_clears_ghost_only_witness :
    (handleKeyDown "Escape" (runEditor [EditorEvent.input "a" 1, EditorEvent.fire 0,
        EditorEvent.input "ab" 2, EditorEvent.response 0 (some "xyz")])).ghostSuggestion = none
  ∧ (handleKeyDown "Escape" (runEditor [EditorEvent.input "a" 1, EditorEvent.fire 0,
        EditorEvent.input "ab" 2, EditorEvent.response 0 (some "xyz")])).pendingTimers
      = (runEditor [EditorEvent.input "a" 1, EditorEvent.fire 0,
        EditorEvent.input "ab" 2, EditorEvent.response 0 (some "xyz")]).pendingTimers
  ∧ (handleKeyDown "Tab" (runEditor [EditorEvent.input "a" 1, EditorEvent.fire 0,
        EditorEvent.input "ab" 2, EditorEvent.response 0 (some "xyz")])).localContent
      = (runEditor [EditorEvent.input "a" 1, EditorEvent.fire 0,
        EditorEvent.input "ab" 2, EditorEvent.response 0 (some "xyz")]).localContent ++ "xyz" := by
  have hk := keydown_clears_ghost_only
    (runEditor [EditorEvent.input "a" 1, EditorEvent.fire 0,
      EditorEvent.input "ab" 2, EditorEvent.response 0 (some "xyz")])
    ⟨"xyz", 1⟩ (by decide)
  exact ⟨hk.1, hk.2.1, hk.2.2.2.2.2.2.2.2.2⟩

end Membrane
